import Mathlib

/-!
Verification of `src/js/statistics.js`.

A shallow embedding of the statistics module.  JavaScript numbers are IEEE
doubles; every double value is a rational number, so they are modelled here as
exact rationals together with the special values `NaN`, `Infinity` and
`-Infinity` (negative zero is identified with zero, and rounding of arithmetic
results is idealised away: all the properties verified below concern small
integer-valued data on which double arithmetic is exact).
-/

namespace Stats

/-- A JavaScript number: a finite (rational) value, `NaN`, `Infinity` or
`-Infinity`. -/
inductive JSNum where
  | num (q : ℚ)
  | nan
  | inf
  | ninf
deriving DecidableEq, Repr

namespace JSNum

/-- JS unary negation on numbers. -/
def neg : JSNum → JSNum
  | num q => num (-q)
  | nan => nan
  | inf => ninf
  | ninf => inf

/-- JS addition: `NaN` propagates, `Infinity + -Infinity = NaN`. -/
def add : JSNum → JSNum → JSNum
  | nan, _ => nan
  | _, nan => nan
  | inf, ninf => nan
  | ninf, inf => nan
  | inf, _ => inf
  | _, inf => inf
  | ninf, _ => ninf
  | _, ninf => ninf
  | num a, num b => num (a + b)

/-- JS subtraction, `a - b = a + (-b)`. -/
def sub (a b : JSNum) : JSNum := add a (neg b)

/-- JS multiplication: `NaN` propagates, `Infinity * 0 = NaN`, otherwise
infinities keep the sign of the finite factor. -/
def mul : JSNum → JSNum → JSNum
  | nan, _ => nan
  | _, nan => nan
  | num a, num b => num (a * b)
  | inf, inf => inf
  | inf, ninf => ninf
  | ninf, inf => ninf
  | ninf, ninf => inf
  | inf, num b => if b = 0 then nan else if 0 < b then inf else ninf
  | num a, inf => if a = 0 then nan else if 0 < a then inf else ninf
  | ninf, num b => if b = 0 then nan else if 0 < b then ninf else inf
  | num a, ninf => if a = 0 then nan else if 0 < a then ninf else inf

/-- JS division: `NaN` propagates, `0/0 = NaN`, `a/0 = ±Infinity` for finite
nonzero `a`, `a/±Infinity = 0` for finite `a`, `±Infinity/±Infinity = NaN`
(the model has no negative zero, so a positive zero divisor is assumed). -/
def div : JSNum → JSNum → JSNum
  | nan, _ => nan
  | _, nan => nan
  | num a, num b =>
      if b = 0 then (if a = 0 then nan else if 0 < a then inf else ninf)
      else num (a / b)
  | num _, inf => num 0
  | num _, ninf => num 0
  | inf, num b => if b < 0 then ninf else inf
  | ninf, num b => if b < 0 then inf else ninf
  | inf, _ => nan
  | ninf, _ => nan

/-- `Math.pow` with a natural-number exponent (the source only raises to the
literal exponents 2..6 and 16).  Following JS, `pow x 0 = 1` even for `NaN`. -/
def pow (a : JSNum) (k : ℕ) : JSNum :=
  if k = 0 then num 1
  else match a with
    | num q => num (q ^ k)
    | nan => nan
    | inf => inf
    | ninf => if k % 2 = 0 then inf else ninf

/-- `Math.floor`. -/
def floor : JSNum → JSNum
  | num q => num ⌊q⌋
  | nan => nan
  | inf => inf
  | ninf => ninf

/-- `Math.abs`. -/
def abs : JSNum → JSNum
  | num q => num |q|
  | nan => nan
  | inf => inf
  | ninf => inf

/-- Fuelled digit-by-digit integer square root (structurally recursive, so
that concrete instances reduce inside the kernel): with enough fuel,
`isqrtAux fuel n` is `⌊√n⌋`. -/
def isqrtAux : ℕ → ℕ → ℕ
  | 0, _ => 0
  | fuel + 1, n =>
    if n = 0 then 0
    else
      let r := 2 * isqrtAux fuel (n / 4)
      if (r + 1) ^ 2 ≤ n then r + 1 else r

/-- `⌊√n⌋` (the fuel `n` always suffices: the recursion quarters `n`). -/
def isqrt (n : ℕ) : ℕ := isqrtAux n n

/-- Denominator scale used to model the (finite-precision) result of
`Math.sqrt` on non-perfect squares. -/
def sqrtScale : ℕ := 10 ^ 6

/-- `Math.sqrt` on a nonnegative rational returns a double, i.e. a rational
approximation of the true square root; the approximation is exact whenever the
argument is the square of a rational (which covers every square root a
verified property below actually evaluates).  Modelled by the integer square
root of the argument scaled to the denominator `den * sqrtScale`. -/
def ratSqrt (q : ℚ) : ℚ :=
  (isqrt (q.num.toNat * q.den * sqrtScale ^ 2) : ℚ) / ((q.den : ℚ) * (sqrtScale : ℚ))

/-- `Math.sqrt`: `NaN` on negative arguments and on `NaN`, `Infinity` on
`Infinity`. -/
def sqrt : JSNum → JSNum
  | num q => if q < 0 then nan else num (ratSqrt q)
  | nan => nan
  | inf => inf
  | ninf => nan

/-- `isNaN` on an already-numeric value. -/
def isNaNb : JSNum → Bool
  | nan => true
  | _ => false

/-- `Math.min` of two coerced arguments (`NaN` poisons). -/
def min2 : JSNum → JSNum → JSNum
  | nan, _ => nan
  | _, nan => nan
  | num a, num b => num (Min.min a b)
  | ninf, _ => ninf
  | _, ninf => ninf
  | inf, b => b
  | a, inf => a

/-- `Math.max` of two coerced arguments (`NaN` poisons). -/
def max2 : JSNum → JSNum → JSNum
  | nan, _ => nan
  | _, nan => nan
  | num a, num b => num (Max.max a b)
  | inf, _ => inf
  | _, inf => inf
  | ninf, b => b
  | a, ninf => a

end JSNum

/-- A JavaScript value as it appears inside the flat data arrays handled by
the module: a number, `null`, `undefined`, a string or a boolean.  (Nested
arrays inside data arrays never occur in the verified properties; the
array-of-arrays shape taken by `anova` is modelled separately below.) -/
inductive JSVal where
  | n (v : JSNum)
  | null
  | undefined
  | str (s : String)
  | bool (b : Bool)
deriving DecidableEq, Repr

/-- The three-character string `"null"`, the missing-data sentinel the module
compares against. -/
def nullStr : String := "null"

/-- The string JS prints for the infinite values; `ToNumber` accepts it,
optionally signed. -/
def infinityStr : String := "Infinity"

/-- Value of a digit character: `0`-`9`, then `a`-`f` and `A`-`F` as 10..15;
anything else maps to the sentinel `16`, invalid in every supported base. -/
def digitVal (c : Char) : ℕ :=
  if c.isDigit then c.toNat - 48
  else if 97 ≤ c.toNat ∧ c.toNat ≤ 102 then c.toNat - 87
  else if 65 ≤ c.toNat ∧ c.toNat ≤ 70 then c.toNat - 55
  else 16

/-- A non-empty run of digits in base `b`, or `none` when empty or when a
character is not a digit of that base. -/
def digitsToNat (b : ℕ) (cs : List Char) : Option ℕ :=
  if cs.isEmpty ∨ ¬ cs.all (fun c => decide (digitVal c < b)) then none
  else some (cs.foldl (fun acc c => acc * b + digitVal c) 0)

/-- Decimal value of a digit run (validity already established). -/
def decDigitsVal (cs : List Char) : ℕ :=
  cs.foldl (fun acc c => acc * 10 + digitVal c) 0

/-- The exponent part of a decimal numeral: an optional sign followed by a
non-empty digit run. -/
def parseExp (cs : List Char) : Option ℤ :=
  match cs with
  | [] => none
  | c :: rest =>
    if c = '+' then (digitsToNat 10 rest).map (fun k => (k : ℤ))
    else if c = '-' then (digitsToNat 10 rest).map (fun k => -(k : ℤ))
    else (digitsToNat 10 cs).map (fun k => (k : ℤ))

/-- An unsigned decimal numeral as JS `ToNumber` accepts it:
`digits [. digits] [exponent]` or `. digits [exponent]`. -/
def parseDecimal (cs : List Char) : Option ℚ :=
  let ip := cs.takeWhile Char.isDigit
  let r1 := cs.dropWhile Char.isDigit
  match r1 with
  | [] => if ip.isEmpty then none else some ((decDigitsVal ip : ℕ) : ℚ)
  | c :: r2 =>
    if c = '.' then
      let fp := r2.takeWhile Char.isDigit
      let r3 := r2.dropWhile Char.isDigit
      if ip.isEmpty ∧ fp.isEmpty then none
      else
        let base : ℚ :=
          ((decDigitsVal ip : ℕ) : ℚ) + ((decDigitsVal fp : ℕ) : ℚ) / (10 : ℚ) ^ fp.length
        match r3 with
        | [] => some base
        | e :: r4 =>
          if e = 'e' ∨ e = 'E' then (parseExp r4).map (fun k => base * (10 : ℚ) ^ k)
          else none
    else if (c = 'e' ∨ c = 'E') ∧ ¬ ip.isEmpty then
      (parseExp r2).map (fun k => ((decDigitsVal ip : ℕ) : ℚ) * (10 : ℚ) ^ k)
    else none

/-- An unsigned decimal literal or the literal `Infinity`. -/
def parseUnsignedDec (cs : List Char) : Option JSNum :=
  if cs = infinityStr.toList then some .inf
  else (parseDecimal cs).map JSNum.num

/-- A signed decimal literal or signed `Infinity` (`-Infinity` gives the
negative infinite value). -/
def parseSignedDec (cs : List Char) : Option JSNum :=
  match cs with
  | [] => none
  | c :: rest =>
    if c = '+' then parseUnsignedDec rest
    else if c = '-' then (parseUnsignedDec rest).map JSNum.neg
    else parseUnsignedDec cs

/-- An unsigned non-decimal integer literal: `0x`/`0X` hex, `0o`/`0O` octal,
`0b`/`0B` binary (JS permits no sign on these). -/
def parseNonDecimal (cs : List Char) : Option JSNum :=
  match cs with
  | z :: c :: rest =>
    if z = '0' then
      if c = 'x' ∨ c = 'X' then (digitsToNat 16 rest).map (fun k => JSNum.num (k : ℚ))
      else if c = 'o' ∨ c = 'O' then (digitsToNat 8 rest).map (fun k => JSNum.num (k : ℚ))
      else if c = 'b' ∨ c = 'B' then (digitsToNat 2 rest).map (fun k => JSNum.num (k : ℚ))
      else none
    else none
  | _ => none

/-- JS string-to-number coercion (`ToNumber` on strings): trim whitespace;
the empty remainder coerces to `0`; an unsigned hex/octal/binary literal, a
signed decimal numeral (optional fraction and exponent) or signed `Infinity`
coerce to their values; every other string — in particular the
three-character string `"null"` — coerces to `NaN`.  (Trimming follows
Lean's ASCII whitespace; exotic Unicode-only whitespace is not modelled.) -/
def strToNum (s : String) : JSNum :=
  let t := s.trim.toList
  if t.isEmpty then .num 0
  else
    match parseNonDecimal t with
    | some v => v
    | none =>
      match parseSignedDec t with
      | some v => v
      | none => .nan

/-- JS `ToNumber` coercion of a value (as performed by unary `+`, arithmetic
operators and `isNaN`): `null → 0`, `undefined → NaN`, booleans to `0`/`1`. -/
def toNumber : JSVal → JSNum
  | .n v => v
  | .null => .num 0
  | .undefined => .nan
  | .str s => strToNum s
  | .bool b => .num (if b then 1 else 0)

/-- Global `isNaN(x)`: coerce, then test for `NaN`. -/
def jsIsNaN (v : JSVal) : Bool := (toNumber v).isNaNb

/-- The source's `isNumber`: the negation of the coercing global `isNaN`. -/
def isNumber (v : JSVal) : Bool := !jsIsNaN v

/-- `makeNumeric`: `null` stays `null`; values passing `isNumber` are coerced
with unary `+`; everything else becomes `null`. -/
def makeNumeric (v : JSVal) : JSVal :=
  if v = .null then .null
  else if isNumber v then .n (toNumber v)
  else .null

/-- The numeric comparator passed to the sort in `quantile` returns `a - b`;
here it is turned into the stability test of a stable sort: `b` keeps its
place before `a` iff the comparator value on `(b, a)` is at most `0` (a `NaN`
comparator result is treated as `0`, as the ES2019 sort specification
does). -/
def cmpKeep (b a : JSVal) : Bool :=
  match JSNum.sub (toNumber b) (toNumber a) with
  | .num q => q ≤ 0
  | .nan => true
  | .inf => false
  | .ninf => true

/-- Insert `a` after every element of the (sorted) list that may stay before
it. -/
def insertSorted (a : JSVal) : List JSVal → List JSVal
  | [] => [a]
  | b :: rest => if cmpKeep b a then b :: insertSorted a rest else a :: b :: rest

/-- `Array.prototype.sort` with the numeric comparator: a stable sort of the
array by coerced numeric value (sorting is stable per ES2019). -/
def jsSort (l : List JSVal) : List JSVal :=
  l.foldl (fun acc a => insertSorted a acc) []

/-- JS array indexing `l[i]` with a numeric index: the element when `i` is an
integer inside bounds, `undefined` otherwise. -/
def jsIndex (l : List JSVal) (i : JSNum) : JSVal :=
  match i with
  | .num q => if q.den = 1 ∧ 0 ≤ q.num then l.getD q.num.toNat .undefined else .undefined
  | _ => .undefined

/-- The body of `mean` after `x = x.map(makeNumeric)`: the loop
`sum += +x[i]` starting from `0`, then `sum / n`. -/
def meanValue (l : List JSVal) : JSNum :=
  JSNum.div (l.foldl (fun acc v => JSNum.add acc (toNumber v)) (.num 0))
    (.num (l.length : ℚ))

/-- `mean`: coerce the entries with `makeNumeric`, sum them with unary-`+`
coercion, divide by the array length. -/
def mean (x : List JSVal) : JSNum := meanValue (x.map makeNumeric)

/-- `variance`: population variance; the loop `diff += pow(x[i] - m, 2)`
coerces the raw entries, divides by `n`. -/
def variance (x : List JSVal) : JSNum :=
  let n := x.length
  let m := mean x
  let diff := x.foldl (fun acc v => JSNum.add acc (JSNum.pow (JSNum.sub (toNumber v) m) 2)) (.num 0)
  JSNum.div diff (.num (n : ℚ))

/-- The body of `quantile` after `x.map(makeNumeric)` and the in-place sort:
return `0` on the empty array, else `position = (length-1)*q`,
`base = floor(position)`, `rest = position - base`, and — since the guard
tests `x[base] !== undefined`, not `x[base+1]` — evaluate
`x[base] + rest * (x[base+1] - x[base])` whenever `x[base]` exists. -/
def quantileValue (x : List JSVal) (q : JSNum) : JSVal :=
  if x.length = 0 then .n (.num 0)
  else
    let position := JSNum.mul (.num ((x.length : ℚ) - 1)) q
    let base := position.floor
    let rest := JSNum.sub position base
    if jsIndex x base ≠ .undefined then
      .n (JSNum.add (toNumber (jsIndex x base))
        (JSNum.mul rest
          (JSNum.sub (toNumber (jsIndex x (JSNum.add base (.num 1))))
            (toNumber (jsIndex x base)))))
    else jsIndex x base

/-- `quantile(x, q)`: `x = x.map(makeNumeric); x = x.sort(numeric)`, then the
position/base/rest computation of `quantileValue`. -/
def quantile (x : List JSVal) (q : JSNum) : JSVal :=
  quantileValue (jsSort (x.map makeNumeric)) q

/-- `median(x) = quantile(x, 0.5)`. -/
def median (x : List JSVal) : JSVal := quantile x (.num (1/2))

/-- `countNull`: the loop counts entries satisfying
`x[i] === null | x[i] === "null"` — a bitwise OR of the two boolean tests
(coerced to `0`/`1`), the result being truthy iff it is nonzero. -/
def countNull (x : List JSVal) : ℕ :=
  x.foldl
    (fun acc v =>
      if Nat.lor (if v = .null then 1 else 0) (if v = .str nullStr then 1 else 0) ≠ 0
      then acc + 1 else acc)
    0

/-- The Abramowitz–Stegun coefficients `a1`..`a6` (exact decimal values of the
source literals). -/
def asCoeffs : ℚ × ℚ × ℚ × ℚ × ℚ × ℚ :=
  (49867347 / 10^9, 211410061 / 10^10, 32776263 / 10^10,
   380036 / 10^10, 488906 / 10^10, 5383 / 10^9)

/-- The polynomial `1 + a1 x + a2 x^2 + a3 x^3 + a4 x^4 + a5 x^5 + a6 x^6`
shared verbatim by `tDistribution` and `fDistribution`. -/
def asPoly (x : JSNum) : JSNum :=
  let (a1, a2, a3, a4, a5, a6) := asCoeffs
  JSNum.add (JSNum.add (JSNum.add (JSNum.add (JSNum.add (JSNum.add
    (.num 1)
    (JSNum.mul (.num a1) x))
    (JSNum.mul (.num a2) (JSNum.pow x 2)))
    (JSNum.mul (.num a3) (JSNum.pow x 3)))
    (JSNum.mul (.num a4) (JSNum.pow x 4)))
    (JSNum.mul (.num a5) (JSNum.pow x 5)))
    (JSNum.mul (.num a6) (JSNum.pow x 6))

/-- The final step `p = 2 * (1 / (2 * poly(x)^16))` shared verbatim by the two
distribution approximations. -/
def asP (x : JSNum) : JSNum :=
  JSNum.mul (.num 2) (JSNum.div (.num 1) (JSNum.mul (.num 2) (JSNum.pow (asPoly x) 16)))

/-- `tDistribution(df, t)`:
`x = t * (1 - 1/(4*df)) / sqrt(1 + t^2/(2*df))`, then the shared polynomial
step. -/
def tDistribution (df t : JSNum) : JSNum :=
  let x := JSNum.div
    (JSNum.mul t (JSNum.sub (.num 1) (JSNum.div (.num 1) (JSNum.mul (.num 4) df))))
    (JSNum.sqrt (JSNum.add (.num 1) (JSNum.div (JSNum.pow t 2) (JSNum.mul (.num 2) df))))
  asP x

/-- `fDistribution(f, df1, df2)`:
`x = (f - df2/(df2-2)) / ((df2/(df2-2)) * sqrt((2*(df1+df2-2))/(df1*(df2-4))))`,
then the shared polynomial step. -/
def fDistribution (f df1 df2 : JSNum) : JSNum :=
  let x := JSNum.div
    (JSNum.sub f (JSNum.div df2 (JSNum.sub df2 (.num 2))))
    (JSNum.mul (JSNum.div df2 (JSNum.sub df2 (.num 2)))
      (JSNum.sqrt (JSNum.div
        (JSNum.mul (.num 2) (JSNum.sub (JSNum.add df1 df2) (.num 2)))
        (JSNum.mul df1 (JSNum.sub df2 (.num 4))))))
  asP x

/-- `sumSquaredErrors(data)`: per sample `i`, sum the squared deviations of
the raw entries from `means[i] = mean(data[i])`; then sum over samples (both
reduces start from `0`). -/
def sumSquaredErrors (data : List (List JSVal)) : JSNum :=
  let se := (data.zip (data.map mean)).map
    (fun p => p.1.foldl
      (fun acc v => JSNum.add acc (JSNum.pow (JSNum.sub (toNumber v) p.2) 2)) (.num 0))
  se.foldl JSNum.add (.num 0)

/-- `sumSquaredTreatment(overallMean, means)`: sum of squared deviations of
the group means from the overall mean, then multiplied by
`(means.length - 1)`. -/
def sumSquaredTreatment (overallMean : JSNum) (means : List JSNum) : JSNum :=
  let sst := means.foldl
    (fun acc cur => JSNum.add acc (JSNum.pow (JSNum.sub cur overallMean) 2)) (.num 0)
  JSNum.mul sst (.num ((means.length : ℚ) - 1))

/-- `fStatistic(x, m, n)`: group means, overall mean of the means (the means
array is itself fed to `mean`), `mse = sse/(n-m)`, `mst = sst/(m-1)`,
`f = mst/mse`. -/
def fStatistic (x : List (List JSVal)) (m n : ℕ) : JSNum :=
  let means := x.map mean
  let overallMean := mean (means.map JSVal.n)
  let sse := sumSquaredErrors x
  let sst := sumSquaredTreatment overallMean means
  let mse := JSNum.div sse (.num ((n : ℚ) - (m : ℚ)))
  let mst := JSNum.div sst (.num ((m : ℚ) - 1))
  JSNum.div mst mse

/-- An element of the value passed to `anova`: either an array (a group) or
any non-array value. -/
inductive AnovaElem where
  | group (l : List JSVal)
  | prim (v : JSVal)
deriving DecidableEq, Repr

/-- The value passed to `anova`: either an array of elements or any non-array
value. -/
inductive AnovaInput where
  | array (elems : List AnovaElem)
  | prim (v : JSVal)
deriving DecidableEq, Repr

/-- `Array.isArray` on an element of the outer array. -/
def AnovaElem.isArr : AnovaElem → Bool
  | .group _ => true
  | .prim _ => false

/-- Extract the group from an element already known to be an array. -/
def AnovaElem.toGroup : AnovaElem → List JSVal
  | .group l => l
  | .prim _ => []

/-- The result of `anova`: the boolean `false` on shape-validation failure, a
number otherwise. -/
inductive AnovaResult where
  | invalid
  | pval (v : JSNum)
deriving DecidableEq, Repr

/-- `anova(x)`: return `false` unless `x` is an array whose every element is
an array; else `m = x.length`, `n` the reduce-summed group sizes,
`df1 = m-1`, `df2 = n-1`, `p = fDistribution(fStatistic(x, m, n), df1, df2)`. -/
def anova : AnovaInput → AnovaResult
  | .prim _ => .invalid
  | .array elems =>
    if elems.all AnovaElem.isArr then
      let x := elems.map AnovaElem.toGroup
      let m := x.length
      let n := x.foldl (fun acc g => acc + g.length) 0
      .pval (fDistribution (fStatistic x m n) (.num ((m : ℚ) - 1)) (.num ((n : ℚ) - 1)))
    else .invalid

/-- `degreesOfFreedom(x, y)`: the Welch–Satterthwaite formula over the two
(already filtered) samples. -/
def degreesOfFreedom (x y : List JSVal) : JSNum :=
  let nx := JSNum.num (x.length : ℚ)
  let ny := JSNum.num (y.length : ℚ)
  let xVar := variance x
  let yVar := variance y
  let numerator := JSNum.pow (JSNum.add (JSNum.div xVar nx) (JSNum.div yVar ny)) 2
  let denominator := JSNum.add
    (JSNum.div (JSNum.pow (JSNum.div xVar nx) 2) (JSNum.sub nx (.num 1)))
    (JSNum.div (JSNum.pow (JSNum.div yVar ny) 2) (JSNum.sub ny (.num 1)))
  JSNum.div numerator denominator

/-- The filter `a !== null && a !== undefined` applied by `tTest` to both
samples. -/
def notMissing : JSVal → Bool
  | .null => false
  | .undefined => false
  | _ => true

/-- `tTest(x, y)`: filter `null`/`undefined` from both samples; if both
filtered lengths are at least `3`, compute the Welch `t` statistic, take its
absolute value and look up `tDistribution(degreesOfFreedom(x, y), t)`;
otherwise return `NaN`. -/
def tTest (x y : List JSVal) : JSNum :=
  let x' := x.filter notMissing
  let y' := y.filter notMissing
  let nx := x'.length
  let ny := y'.length
  if 3 ≤ nx ∧ 3 ≤ ny then
    let xMean := mean x'
    let yMean := mean y'
    let xVar := variance x'
    let yVar := variance y'
    let t := JSNum.div (JSNum.sub xMean yMean)
      (JSNum.sqrt (JSNum.add (JSNum.div xVar (.num (nx : ℚ))) (JSNum.div yVar (.num (ny : ℚ)))))
    let tAbs := t.abs
    let df := degreesOfFreedom x' y'
    tDistribution df tAbs
  else .nan

/-- The result of `pearsonCorrelation`: the sentinel string `"failed"` or the
record `{r, p}`. -/
inductive PearsonResult where
  | failed
  | ok (r p : JSNum)
deriving DecidableEq, Repr

/-- The pair filter of `pearsonCorrelation`: walk the aligned indices, keep a
pair iff `!isNaN(y[c]) && !isNaN(x[c])`, pushing the unary-`+`-coerced values
`(+x[c], +y[c])`. -/
def survivors (x y : List JSVal) : List (JSNum × JSNum) :=
  ((x.zip y).filter (fun p => !jsIsNaN p.2 && !jsIsNaN p.1)).map
    (fun p => (toNumber p.1, toNumber p.2))

/-- The `r` computed by `pearsonCorrelation` over the surviving pairs:
`(xyProd - xSum*ySum/n) / (sqrt(xSquaredSum - xSum^2/n) * sqrt(ySquaredSum - ySum^2/n))`. -/
def pearsonR (pairs : List (JSNum × JSNum)) : JSNum :=
  let n := JSNum.num (pairs.length : ℚ)
  let xSum := pairs.foldl (fun acc p => JSNum.add acc p.1) (.num 0)
  let ySum := pairs.foldl (fun acc p => JSNum.add acc p.2) (.num 0)
  let xSquaredSum := pairs.foldl (fun acc p => JSNum.add acc (JSNum.pow p.1 2)) (.num 0)
  let ySquaredSum := pairs.foldl (fun acc p => JSNum.add acc (JSNum.pow p.2 2)) (.num 0)
  let xyProd := pairs.foldl (fun acc p => JSNum.add acc (JSNum.mul p.1 p.2)) (.num 0)
  let numerator := JSNum.sub xyProd (JSNum.div (JSNum.mul xSum ySum) n)
  let denominator := JSNum.mul
    (JSNum.sqrt (JSNum.sub xSquaredSum (JSNum.div (JSNum.pow xSum 2) n)))
    (JSNum.sqrt (JSNum.sub ySquaredSum (JSNum.div (JSNum.pow ySum 2) n)))
  JSNum.div numerator denominator

/-- The `p` computed by `pearsonCorrelation` over the surviving pairs:
`df = n - 2`, `t = abs(r / sqrt((1 - r^2)/df))`, `tDistribution(df, t)`. -/
def pearsonP (pairs : List (JSNum × JSNum)) : JSNum :=
  let r := pearsonR pairs
  let df := JSNum.num ((pairs.length : ℚ) - 2)
  let t := JSNum.abs (JSNum.div r
    (JSNum.sqrt (JSNum.div (JSNum.sub (.num 1) (JSNum.pow r 2)) df)))
  tDistribution df t

/-- `pearsonCorrelation(x, y)`: `"failed"` when the lengths differ; filter the
aligned pairs; when more than `10` survive return `{r, p}`, else `"failed"`. -/
def pearsonCorrelation (x y : List JSVal) : PearsonResult :=
  if x.length ≠ y.length then .failed
  else if 10 < (survivors x y).length then
    .ok (pearsonR (survivors x y)) (pearsonP (survivors x y))
  else .failed

/-- `Math.min.apply(Math, x)`: fold `Math.min` (with `ToNumber` coercion and
`NaN` poisoning) over the entries, starting from `Infinity` (`Math.min()` with
no arguments). -/
def jsMinList (x : List JSVal) : JSNum :=
  x.foldl (fun acc v => JSNum.min2 acc (toNumber v)) .inf

/-- `Math.max.apply(Math, x)`: fold `Math.max` over the entries, starting from
`-Infinity`. -/
def jsMaxList (x : List JSVal) : JSNum :=
  x.foldl (fun acc v => JSNum.max2 acc (toNumber v)) .ninf

/-- The record returned by `summary` (`nullCount` models the `"null"` key; the
two quantile keys are present only when `addQuantile` is set). -/
structure SummaryRecord where
  minimum : JSNum
  maximum : JSNum
  meanVal : JSNum
  medianVal : JSVal
  nullCount : ℕ
  q25 : Option JSVal
  q75 : Option JSVal
deriving DecidableEq, Repr

/-- `summary(x, addQuantile)`: minimum, maximum, mean, median and null count,
plus the 25% and 75% quantiles when `addQuantile` is set. -/
def summary (x : List JSVal) (addQuantile : Bool) : SummaryRecord :=
  { minimum := jsMinList x
    maximum := jsMaxList x
    meanVal := mean x
    medianVal := median x
    nullCount := countNull x
    q25 := if addQuantile then some (quantile x (.num (1/4))) else none
    q75 := if addQuantile then some (quantile x (.num (3/4))) else none }

/-- Modelled from the spec: the R-7 quantile estimator as the specification
describes `quantile` — coerce via `makeNumeric`, sort ascending numerically,
return `0` if empty, else `position = (n-1)*q`, `base = floor(position)`,
`rest = position - base`, and interpolate
`x[base] + rest*(x[base+1]-x[base])` when the element at index `base+1`
exists, returning `x[base]` when it does not.  It differs from the source's
`quantileValue` only in the guard: the source tests `x[base]` instead of
`x[base+1]`. -/
def quantileSpec (x : List JSVal) (q : JSNum) : JSVal :=
  let x' := jsSort (x.map makeNumeric)
  if x'.length = 0 then .n (.num 0)
  else
    let position := JSNum.mul (.num ((x'.length : ℚ) - 1)) q
    let base := position.floor
    let rest := JSNum.sub position base
    if jsIndex x' (JSNum.add base (.num 1)) ≠ .undefined then
      .n (JSNum.add (toNumber (jsIndex x' base))
        (JSNum.mul rest
          (JSNum.sub (toNumber (jsIndex x' (JSNum.add base (.num 1))))
            (toNumber (jsIndex x' base)))))
    else jsIndex x' base

/-!
Caller-array aliasing model.

`quantile` receives a reference to the caller's array.  Its body performs two
array operations whose aliasing behaviour matters: `x = x.map(makeNumeric)`
allocates a fresh array and rebinds the local `x` to it, and
`x = x.sort(...)` sorts the array the local `x` references in place (returning
the same reference).  The model makes references and the heap explicit so that
the effect on the caller's array is a theorem, not an assumption.
-/

/-- A reference to an array on the heap. -/
structure ArrRef where
  idx : ℕ
deriving DecidableEq, Repr

/-- The heap: a list of array contents, indexed by `ArrRef.idx`. -/
structure Store where
  heap : List (List JSVal)
deriving DecidableEq, Repr

/-- Read the array a reference denotes. -/
def Store.read (s : Store) (r : ArrRef) : List JSVal := s.heap.getD r.idx []

/-- Allocate a fresh array (as `Array.prototype.map` does), returning the new
reference. -/
def Store.alloc (s : Store) (l : List JSVal) : ArrRef × Store :=
  (⟨s.heap.length⟩, ⟨s.heap ++ [l]⟩)

/-- Overwrite the array a reference denotes (as the in-place
`Array.prototype.sort` does). -/
def Store.write (s : Store) (r : ArrRef) (l : List JSVal) : Store :=
  ⟨s.heap.set r.idx l⟩

/-- `quantile(x, q)` with the heap explicit: `x = x.map(makeNumeric)`
allocates a fresh array and rebinds the local `x`; `x = x.sort(...)` mutates
that array in place; the rest of the body reads the sorted array. -/
def quantileSteps (s : Store) (x : ArrRef) (q : JSNum) : JSVal × Store :=
  let p := s.alloc ((s.read x).map makeNumeric)
  let x1 := p.1
  let s1 := p.2
  let s2 := s1.write x1 (jsSort (s1.read x1))
  (quantileValue (s2.read x1) q, s2)

/-- `median(x)` with the heap explicit: delegates to `quantile(x, 0.5)`. -/
def medianSteps (s : Store) (x : ArrRef) : JSVal × Store :=
  quantileSteps s x (.num (1/2))

/-- `mean(x)` with the heap explicit: `x.map(makeNumeric)` allocates a fresh
array; the summing loop only reads it. -/
def meanSteps (s : Store) (x : ArrRef) : JSNum × Store :=
  let p := s.alloc ((s.read x).map makeNumeric)
  (meanValue (p.2.read p.1), p.2)

/-- `summary(x, addQuantile)` with the heap explicit: min, max and the null
count only read the caller's array; `mean`, `median` and the optional quantile
calls are threaded through the store in source order. -/
def summarySteps (s : Store) (x : ArrRef) (addQuantile : Bool) :
    SummaryRecord × Store :=
  let mn := jsMinList (s.read x)
  let mx := jsMaxList (s.read x)
  let pMean := meanSteps s x
  let pMed := medianSteps pMean.2 x
  let nulls := countNull (pMed.2.read x)
  if addQuantile then
    let p25 := quantileSteps pMed.2 x (.num (1/4))
    let p75 := quantileSteps p25.2 x (.num (3/4))
    ({ minimum := mn, maximum := mx, meanVal := pMean.1, medianVal := pMed.1,
       nullCount := nulls, q25 := some p25.1, q75 := some p75.1 }, p75.2)
  else
    ({ minimum := mn, maximum := mx, meanVal := pMean.1, medianVal := pMed.1,
       nullCount := nulls, q25 := none, q75 := none }, pMed.2)

/-- Modelled from the spec: the Welch t statistic
`(mean(x) - mean(y)) / sqrt(var(x)/nx + var(y)/ny)` over the two (already
filtered) samples, as the claim describes the value whose absolute value is
fed to `tDistribution`. -/
def welchT (x y : List JSVal) : JSNum :=
  JSNum.div (JSNum.sub (mean x) (mean y))
    (JSNum.sqrt (JSNum.add
      (JSNum.div (variance x) (.num (x.length : ℚ)))
      (JSNum.div (variance y) (.num (y.length : ℚ)))))

/-- The structural test `anova` performs: the input is an array whose every
element is an array. -/
def isArrayOfArrays : AnovaInput → Bool
  | .array elems => elems.all AnovaElem.isArr
  | .prim _ => false

/-- Whether an `anova` result is a finite number strictly greater than `1`. -/
def exceedsOne : AnovaResult → Bool
  | .pval (.num q) => decide (1 < q)
  | _ => false

/-- The array `[1, 2, 3, 4]` of the claims about `quantile`. -/
def c1ex : List JSVal := [.n (.num 1), .n (.num 2), .n (.num 3), .n (.num 4)]

/-- The caller's array `[3, 1, 2]`, stored on the heap at slot `0`. -/
def c2store : Store := ⟨[[.n (.num 3), .n (.num 1), .n (.num 2)]]⟩

/-- A well-formed ANOVA group used by the C3 counterexample. -/
def c3group : List JSVal := [.n (.num 1), .n (.num 2), .n (.num 3), .n (.num 4)]

/-- The two three-element samples of the C5 counterexample. -/
def c5x : List JSVal := [.n (.num 1), .n (.num 1), .n (.num 1)]

/-- The C9 sample with a `null` at index 5 (11 entries). -/
def c9x : List JSVal :=
  [.n (.num 3), .n (.num 5), .n (.num 2), .n (.num 8), .n (.num 1), .null,
   .n (.num 7), .n (.num 4), .n (.num 9), .n (.num 6), .n (.num 10)]

/-- The aligned all-numeric C9 sample (11 entries). -/
def c9y : List JSVal :=
  [.n (.num 2), .n (.num 6), .n (.num 1), .n (.num 7), .n (.num 3), .n (.num 5),
   .n (.num 8), .n (.num 4), .n (.num 10), .n (.num 5), .n (.num 9)]

/-- `c9x` with the `null` entry dropped (10 entries). -/
def c9xDropped : List JSVal :=
  [.n (.num 3), .n (.num 5), .n (.num 2), .n (.num 8), .n (.num 1),
   .n (.num 7), .n (.num 4), .n (.num 9), .n (.num 6), .n (.num 10)]

/-- `c9y` with the entry aligned with the `null` dropped (10 entries). -/
def c9yDropped : List JSVal :=
  [.n (.num 2), .n (.num 6), .n (.num 1), .n (.num 7), .n (.num 3),
   .n (.num 8), .n (.num 4), .n (.num 10), .n (.num 5), .n (.num 9)]

/-!
Helper lemmas.
-/

theorem getD_append_lt {α : Type} (l l' : List α) (i : ℕ) (d : α)
    (h : i < l.length) : (l ++ l').getD i d = l.getD i d := by
  induction l generalizing i with
  | nil => simp at h
  | cons a t ih =>
    cases i with
    | zero => rfl
    | succ j => exact ih j (Nat.lt_of_succ_lt_succ h)

theorem getD_append_len {α : Type} (l : List α) (a d : α) :
    (l ++ [a]).getD l.length d = a := by
  induction l with
  | nil => rfl
  | cons b t ih => exact ih

theorem set_append_len {α : Type} (l : List α) (a b : α) :
    (l ++ [a]).set l.length b = l ++ [b] := by
  induction l with
  | nil => rfl
  | cons c t ih => simp [List.set, ih]

/-- The heap effect of `quantileSteps`: the caller's heap is extended by one
freshly allocated array (holding the sorted copy) and is otherwise
untouched. -/
theorem quantileSteps_heap (s : Store) (x : ArrRef) (q : JSNum) :
    (quantileSteps s x q).2.heap =
      s.heap ++ [jsSort ((s.read x).map makeNumeric)] := by
  simp only [quantileSteps, Store.alloc, Store.write, Store.read]
  rw [getD_append_len, set_append_len]

/-- The heap effect of `meanSteps`: one fresh array, nothing overwritten. -/
theorem meanSteps_heap (s : Store) (x : ArrRef) :
    (meanSteps s x).2.heap = s.heap ++ [(s.read x).map makeNumeric] := rfl

theorem read_of_heap_extend (s s' : Store) (l : List (List JSVal)) (r : ArrRef)
    (hs : s'.heap = s.heap ++ l) (h : r.idx < s.heap.length) :
    s'.read r = s.read r := by
  simp only [Store.read, hs]
  exact getD_append_lt _ _ _ _ h

theorem foldl_add_finite (l : List JSVal) (a : ℚ)
    (h : ∀ v ∈ l, ∃ q : ℚ, toNumber v = .num q) :
    ∃ s : ℚ, l.foldl (fun acc v => JSNum.add acc (toNumber v)) (.num a) = .num s := by
  induction l generalizing a with
  | nil => exact ⟨a, rfl⟩
  | cons v t ih =>
    obtain ⟨q, hq⟩ := h v (List.mem_cons_self v t)
    have ht : ∀ w ∈ t, ∃ q : ℚ, toNumber w = .num q :=
      fun w hw => h w (List.mem_cons_of_mem v hw)
    obtain ⟨s, hs⟩ := ih (a + q) ht
    refine ⟨s, ?_⟩
    simpa [hq, JSNum.add] using hs

theorem toNumber_makeNumeric_finite (v : JSVal)
    (h1 : toNumber v ≠ .inf) (h2 : toNumber v ≠ .ninf) :
    ∃ q : ℚ, toNumber (makeNumeric v) = .num q := by
  unfold makeNumeric
  by_cases hv : v = .null
  · rw [if_pos hv]
    exact ⟨0, rfl⟩
  · rw [if_neg hv]
    by_cases hn : isNumber v = true
    · rw [if_pos hn]
      cases hw : toNumber v with
      | num q => exact ⟨q, by simp [toNumber, hw]⟩
      | nan =>
        exfalso
        rw [isNumber, jsIsNaN, hw] at hn
        simp [JSNum.isNaNb] at hn
      | inf => exact absurd hw h1
      | ninf => exact absurd hw h2
    · rw [if_neg hn]
      exact ⟨0, rfl⟩

theorem mean_finite_of_ne_nil (x : List JSVal)
    (hfin : ∀ v ∈ x, toNumber v ≠ .inf ∧ toNumber v ≠ .ninf) (hne : x ≠ []) :
    ∃ q : ℚ, mean x = .num q := by
  have hmap : ∀ v ∈ x.map makeNumeric, ∃ q : ℚ, toNumber v = .num q := by
    intro v hv
    obtain ⟨w, hw, rfl⟩ := List.mem_map.1 hv
    exact toNumber_makeNumeric_finite w (hfin w hw).1 (hfin w hw).2
  obtain ⟨s, hs⟩ := foldl_add_finite (x.map makeNumeric) 0 hmap
  have hlen : ((x.map makeNumeric).length : ℚ) ≠ 0 := by
    have hx : x.length ≠ 0 := fun h0 => hne (List.length_eq_zero.1 h0)
    simpa using (Nat.cast_ne_zero (R := ℚ)).2 hx
  refine ⟨s / ((x.length : ℚ)), ?_⟩
  simp only [mean, meanValue, hs, JSNum.div]
  rw [if_neg (by simpa using hlen)]
  simp

/-!
Claim theorems.
-/

/-- C1: the source's `quantile` does NOT follow the stated R-7 steps at the
upper end.  Its guard tests `x[base] !== undefined` (true for every
`0 ≤ q ≤ 1` on a non-empty array) instead of `x[base+1]`, so at `q = 1` the
interpolation `x[base] + 0 * (undefined - x[base])` is evaluated and
`quantile([1,2,3,4], 1)` returns `NaN` instead of the maximum `4` that the
R-7 estimator (`quantileSpec`, the spec's own description) produces; the
interior case `quantile([1,2,3,4], 0.5) = 2.5` and the empty-array case do
hold. -/
theorem c1_quantile_eval :
    quantile c1ex (.num 1) = .n .nan ∧
    quantileSpec c1ex (.num 1) = .n (.num 4) ∧
    quantile c1ex (.num (1/2)) = .n (.num (5/2)) ∧
    quantile ([] : List JSVal) (.num (3/4)) = .n (.num 0) := by
  with_unfolding_all decide

/-- C2 counterexample: calling `quantile` on the caller's array `[3,1,2]`
leaves that array equal to `[3,1,2]` — not mutated into ascending order —
because `x.map(makeNumeric)` allocates a fresh array and the in-place sort
acts on that copy. -/
theorem c2_counterexample :
    (quantileSteps c2store ⟨0⟩ (.num (1/2))).2.read ⟨0⟩ =
      [.n (.num 3), .n (.num 1), .n (.num 2)] ∧
    ¬ (quantileSteps c2store ⟨0⟩ (.num (1/2))).2.read ⟨0⟩ =
      [.n (.num 1), .n (.num 2), .n (.num 3)] := by
  with_unfolding_all decide

/-- The heap effect of `summarySteps`: the caller's heap is only extended. -/
theorem summarySteps_heap (s : Store) (x : ArrRef) (b : Bool) :
    ∃ l, (summarySteps s x b).2.heap = s.heap ++ l := by
  unfold summarySteps medianSteps
  cases b with
  | false =>
    simp only [Bool.false_eq_true, if_false]
    exact ⟨_, by rw [quantileSteps_heap, meanSteps_heap, List.append_assoc]⟩
  | true =>
    simp only [if_true]
    exact ⟨_, by rw [quantileSteps_heap, quantileSteps_heap, quantileSteps_heap,
      meanSteps_heap]
                 simp only [List.append_assoc]
                 rfl⟩

/-- C2 (amended): `quantile(x, q)` — and hence `median(x)` and every
quantile computation inside `summary` — does not mutate the caller's array:
after the call the caller's array is unchanged (the in-place sort is applied
to the fresh array produced by `x.map(makeNumeric)`). -/
theorem c2_caller_array_unchanged (s : Store) (x : ArrRef) (q : JSNum) (b : Bool)
    (h : x.idx < s.heap.length) :
    (quantileSteps s x q).2.read x = s.read x ∧
    (medianSteps s x).2.read x = s.read x ∧
    (summarySteps s x b).2.read x = s.read x := by
  obtain ⟨l, hl⟩ := summarySteps_heap s x b
  exact ⟨read_of_heap_extend s _ _ x (quantileSteps_heap s x q) h,
         read_of_heap_extend s _ _ x (quantileSteps_heap s x _) h,
         read_of_heap_extend s _ _ x hl h⟩

/-- C2 witness: at the concrete store holding `[3,1,2]` in slot `0`, the
hypothesis `0 < 1` holds and the caller's array is unchanged by `summary`. -/
theorem c2_caller_array_unchanged_witness :
    (ArrRef.mk 0).idx < c2store.heap.length ∧
    (summarySteps c2store ⟨0⟩ true).2.read ⟨0⟩ = c2store.read ⟨0⟩ :=
  ⟨by decide, (c2_caller_array_unchanged c2store ⟨0⟩ (.num (1/2)) true (by decide)).2.2⟩

/-- C7: `anova` returns the boolean `false` exactly on inputs that fail the
array-of-arrays shape test — in particular on the flat array `[1,2,3]` — and
never on a true array of arrays (on those it always returns a number). -/
theorem c7_anova_validation :
    (∀ a : AnovaInput, anova a = .invalid ↔ isArrayOfArrays a = false) ∧
    anova (.array [.prim (.n (.num 1)), .prim (.n (.num 2)), .prim (.n (.num 3))]) = .invalid := by
  constructor
  · intro a
    cases a with
    | prim v => simp [anova, isArrayOfArrays]
    | array elems =>
      simp only [anova, isArrayOfArrays]
      by_cases hall : elems.all AnovaElem.isArr
      · rw [if_pos hall]
        simp [hall]
      · rw [if_neg hall]
        simp [hall]
  · with_unfolding_all decide

/-- C8: `countNull` counts exactly the entries that are `null` or the
three-character string `"null"`: the bitwise `|` of the two strict-equality
tests (coerced to `0`/`1`) is truthy precisely when one of them holds, so
`countNull([1, null, 3, "null"]) = 2`. -/
theorem c8_countNull_or :
    (∀ x : List JSVal,
      countNull x =
        (x.filter (fun v => decide (v = .null ∨ v = .str nullStr))).length) ∧
    countNull [.n (.num 1), .null, .n (.num 3), .str nullStr] = 2 := by
  constructor
  · have step : ∀ (v : JSVal) (acc : ℕ),
        (if Nat.lor (if v = .null then 1 else 0) (if v = .str nullStr then 1 else 0) ≠ 0
         then acc + 1 else acc) =
        if v = .null ∨ v = .str nullStr then acc + 1 else acc := by
      intro v acc
      by_cases h1 : v = .null
      · subst h1
        rw [if_pos (by decide), if_pos (Or.inl rfl)]
      · by_cases h2 : v = .str nullStr
        · subst h2
          rw [if_pos (by decide), if_pos (Or.inr rfl)]
        · rw [if_neg h1, if_neg h2, if_neg (by decide : ¬ Nat.lor 0 0 ≠ 0),
            if_neg (not_or.2 ⟨h1, h2⟩)]
    have go : ∀ (x : List JSVal) (acc : ℕ),
        x.foldl
          (fun acc v =>
            if Nat.lor (if v = .null then 1 else 0) (if v = .str nullStr then 1 else 0) ≠ 0
            then acc + 1 else acc)
          acc =
        acc + (x.filter (fun v => decide (v = .null ∨ v = .str nullStr))).length := by
      intro x
      induction x with
      | nil => intro acc; simp
      | cons v t ih =>
        intro acc
        simp only [List.foldl_cons, List.filter_cons, decide_eq_true_eq]
        rw [step v acc]
        by_cases h : v = .null ∨ v = .str nullStr
        · rw [if_pos h, if_pos h, ih, List.length_cons]
          omega
        · rw [if_neg h, if_neg h, ih]
    intro x
    simpa [countNull] using go x 0
  · with_unfolding_all decide

/-- C10: `anova([])` passes the vacuous array-of-arrays validation and does
not return the sentinel `false`; it proceeds with `m = 0`, `n = 0` and
returns `NaN`. -/
theorem c10_anova_empty :
    anova (.array []) = .pval .nan ∧ anova (.array []) ≠ .invalid := by
  with_unfolding_all decide

set_option maxRecDepth 40000 in
/-- C3 counterexample: on the well-formed two-group input
`[[1,2,3,4], [1,2,3,4]]` (equal group means, so `F = 0` and the polynomial is
evaluated at the negative point `x = -1/2`, where `sqrt(4) = 2` is exact),
`anova` returns a number strictly greater than `1` — refuting
`0 ≤ p ≤ 1`. -/
theorem c3_counterexample :
    exceedsOne (anova (.array [.group c3group, .group c3group])) = true := by
  with_unfolding_all decide

theorem map_toGroup_map_group (gs : List (List JSVal)) :
    (gs.map AnovaElem.group).map AnovaElem.toGroup = gs := by
  induction gs with
  | nil => rfl
  | cons g t ih => simp only [List.map_cons, AnovaElem.toGroup, ih]

/-- C3 (amended): for every well-formed input — an array of at least 2
non-empty groups of values — `anova` returns the number
`fDistribution(fStatistic(x, m, n), m-1, n-1)` (never the sentinel `false`);
this number is not guaranteed to lie in `[0,1]` (see the counterexample: it
exceeds `1` when the F statistic is small). -/
theorem c3_anova_returns_fdistribution (gs : List (List JSVal))
    (_h2 : 2 ≤ gs.length) (_hne : ∀ g ∈ gs, g ≠ []) :
    anova (.array (gs.map .group)) =
      .pval (fDistribution
        (fStatistic gs gs.length (gs.foldl (fun acc g => acc + g.length) 0))
        (.num ((gs.length : ℚ) - 1))
        (.num (((gs.foldl (fun acc g => acc + g.length) 0 : ℕ) : ℚ) - 1))) := by
  have hall : (gs.map AnovaElem.group).all AnovaElem.isArr = true := by
    rw [List.all_eq_true]
    intro e he
    obtain ⟨g, _, rfl⟩ := List.mem_map.1 he
    rfl
  simp only [anova]
  rw [if_pos hall, map_toGroup_map_group gs]

/-- C3 witness: the amended theorem applied to the concrete well-formed
two-group input of the counterexample. -/
theorem c3_anova_returns_fdistribution_witness :
    2 ≤ [c3group, c3group].length ∧
    anova (.array ([c3group, c3group].map .group)) =
      .pval (fDistribution
        (fStatistic [c3group, c3group] 2
          ([c3group, c3group].foldl (fun acc g => acc + g.length) 0))
        (.num ((2 : ℚ) - 1))
        (.num ((([c3group, c3group].foldl (fun acc g => acc + g.length) 0 : ℕ) : ℚ) - 1))) :=
  ⟨by decide,
   c3_anova_returns_fdistribution [c3group, c3group] (by decide)
     (by intro g hg; fin_cases hg <;> with_unfolding_all decide)⟩

/-- C4 counterexample: `mean([1, null, 3])` is `4/3`, not `NaN` — the `null`
entry survives `makeNumeric` and the unary `+` in the summing loop coerces it
to `0`, so a `null` entry does not make the result `NaN`. -/
theorem c4_counterexample :
    mean [.n (.num 1), .null, .n (.num 3)] = .num (4/3) ∧
    JSNum.num (4/3) ≠ .nan := by
  with_unfolding_all decide

/-- C4 (amended): `mean(x)` is the coerced-entry sum divided by `x.length`,
where entries whose `ToNumber` coercion is `NaN` (so `null`, `undefined` and
non-numeric strings) are turned into `null` by `makeNumeric` and then coerced
to `0` by the unary `+` (they never poison the result); `mean([1,2,3]) = 2`
and `mean([])` is `NaN` (`0/0`), and — for arrays none of whose entries
coerce to `Infinity` or `-Infinity` (excluding both the infinite numbers and
strings such as `"Infinity"`) — `mean(x)` is `NaN` if and only if `x` is
empty. -/
theorem c4_mean_nan_iff_empty :
    (∀ x : List JSVal, (∀ v ∈ x, toNumber v ≠ .inf ∧ toNumber v ≠ .ninf) →
      (mean x = .nan ↔ x = [])) ∧
    mean [.n (.num 1), .n (.num 2), .n (.num 3)] = .num 2 ∧
    mean ([] : List JSVal) = .nan := by
  refine ⟨?_, by with_unfolding_all decide, by with_unfolding_all decide⟩
  intro x hfin
  constructor
  · intro hnan
    by_contra hne
    obtain ⟨q, hq⟩ := mean_finite_of_ne_nil x hfin hne
    rw [hq] at hnan
    exact JSNum.noConfusion hnan
  · rintro rfl
    with_unfolding_all decide

/-- C4 witness: the amended theorem at the concrete singleton `[5]`, whose
entry coerces to a finite number; `mean([5])` is not `NaN` and `[5]` is
non-empty. -/
theorem c4_mean_nan_iff_empty_witness :
    (∀ v ∈ [JSVal.n (.num 5)], toNumber v ≠ .inf ∧ toNumber v ≠ .ninf) ∧
    (mean [JSVal.n (.num 5)] = .nan ↔ [JSVal.n (.num 5)] = ([] : List JSVal)) :=
  ⟨by decide, c4_mean_nan_iff_empty.1 [JSVal.n (.num 5)] (by decide)⟩

/-- C5 counterexample: both samples `[1,1,1]` keep 3 entries after the
`null`/`undefined` filter, yet `tTest([1,1,1], [1,1,1])` still returns `NaN`
(both variances are `0`, so `t = 0/0 = NaN`) — `NaN` is not returned
*exactly* when a filtered sample is short. -/
theorem c5_counterexample :
    (c5x.filter notMissing).length = 3 ∧ tTest c5x c5x = .nan := by
  with_unfolding_all decide

/-- C5 (amended): `tTest` filters `null`/`undefined` from both arrays and
returns `NaN` whenever fewer than 3 entries remain in either filtered array;
otherwise it returns `tDistribution(degreesOfFreedom(x', y'), |t|)` with `t`
the Welch statistic over the filtered arrays — a value that can itself be
`NaN` (e.g. for two zero-variance samples), so `NaN` results are not limited
to short samples. -/
theorem c5_tTest_filtered (x y : List JSVal) :
    (((x.filter notMissing).length < 3 ∨ (y.filter notMissing).length < 3) →
      tTest x y = .nan) ∧
    (3 ≤ (x.filter notMissing).length → 3 ≤ (y.filter notMissing).length →
      tTest x y =
        tDistribution (degreesOfFreedom (x.filter notMissing) (y.filter notMissing))
          (JSNum.abs (welchT (x.filter notMissing) (y.filter notMissing)))) := by
  constructor
  · intro h
    have hneg : ¬ (3 ≤ (x.filter notMissing).length ∧ 3 ≤ (y.filter notMissing).length) := by
      rcases h with h | h
      · exact fun hc => absurd hc.1 (Nat.not_le_of_lt h)
      · exact fun hc => absurd hc.2 (Nat.not_le_of_lt h)
    simp only [tTest]
    rw [if_neg hneg]
  · intro hx hy
    simp only [tTest, welchT]
    rw [if_pos ⟨hx, hy⟩]

/-- C5 witness: the amended theorem at two concrete samples with 3 valid
entries each (the second obtained after filtering a `null` and an
`undefined`). -/
theorem c5_tTest_filtered_witness :
    3 ≤ ([JSVal.n (.num 1), .n (.num 2), .n (.num 3)].filter notMissing).length ∧
    3 ≤ ([JSVal.null, .n (.num 4), .undefined, .n (.num 5), .n (.num 7)].filter notMissing).length ∧
    tTest [JSVal.n (.num 1), .n (.num 2), .n (.num 3)]
        [JSVal.null, .n (.num 4), .undefined, .n (.num 5), .n (.num 7)] =
      tDistribution
        (degreesOfFreedom
          ([JSVal.n (.num 1), .n (.num 2), .n (.num 3)].filter notMissing)
          ([JSVal.null, .n (.num 4), .undefined, .n (.num 5), .n (.num 7)].filter notMissing))
        (JSNum.abs (welchT
          ([JSVal.n (.num 1), .n (.num 2), .n (.num 3)].filter notMissing)
          ([JSVal.null, .n (.num 4), .undefined, .n (.num 5), .n (.num 7)].filter notMissing))) :=
  ⟨by decide, by decide,
   (c5_tTest_filtered [JSVal.n (.num 1), .n (.num 2), .n (.num 3)]
       [JSVal.null, .n (.num 4), .undefined, .n (.num 5), .n (.num 7)]).2
     (by decide) (by decide)⟩

/-- C6: `pearsonCorrelation(x, y)` returns the sentinel `"failed"` exactly
when the lengths differ or at most 10 index-aligned pairs survive the
pairwise `isNaN` filter; otherwise it returns the record `{r, p}` with `r`
the source's Pearson coefficient over the surviving pairs and `p` obtained
from `tDistribution` with `df = (number of surviving pairs) - 2` (as `pearsonP`
computes it). -/
theorem c6_pearson_failed_iff (x y : List JSVal) :
    (pearsonCorrelation x y = .failed ↔
      x.length ≠ y.length ∨ (survivors x y).length ≤ 10) ∧
    (x.length = y.length → 10 < (survivors x y).length →
      pearsonCorrelation x y =
        .ok (pearsonR (survivors x y)) (pearsonP (survivors x y))) := by
  constructor
  · by_cases hlen : x.length = y.length
    · by_cases hsurv : 10 < (survivors x y).length
      · simp only [pearsonCorrelation]
        rw [if_neg (by simpa using hlen), if_pos hsurv]
        constructor
        · intro h
          exact PearsonResult.noConfusion h
        · intro h
          rcases h with h | h
          · exact absurd hlen h
          · exact absurd hsurv (Nat.not_lt_of_le h)
      · simp only [pearsonCorrelation]
        rw [if_neg (by simpa using hlen), if_neg hsurv]
        simp [Nat.le_of_not_lt hsurv]
    · simp only [pearsonCorrelation]
      rw [if_pos (by simpa using hlen)]
      simp [hlen]
  · intro hlen hsurv
    simp only [pearsonCorrelation]
    rw [if_neg (by simpa using hlen), if_pos hsurv]

/-- C6 witness: two aligned 12-element numeric samples; the lengths agree,
12 pairs survive, and the result is the `{r, p}` record. -/
theorem c6_pearson_failed_iff_witness :
    ([JSVal.n (.num 1), .n (.num 2), .n (.num 3), .n (.num 4), .n (.num 5), .n (.num 6),
      .n (.num 7), .n (.num 8), .n (.num 9), .n (.num 10), .n (.num 11), .n (.num 12)] :
        List JSVal).length =
      ([JSVal.n (.num 2), .n (.num 1), .n (.num 4), .n (.num 3), .n (.num 6), .n (.num 5),
        .n (.num 8), .n (.num 7), .n (.num 10), .n (.num 9), .n (.num 12), .n (.num 11)] :
          List JSVal).length ∧
    10 < (survivors
      [JSVal.n (.num 1), .n (.num 2), .n (.num 3), .n (.num 4), .n (.num 5), .n (.num 6),
       .n (.num 7), .n (.num 8), .n (.num 9), .n (.num 10), .n (.num 11), .n (.num 12)]
      [JSVal.n (.num 2), .n (.num 1), .n (.num 4), .n (.num 3), .n (.num 6), .n (.num 5),
       .n (.num 8), .n (.num 7), .n (.num 10), .n (.num 9), .n (.num 12), .n (.num 11)]).length ∧
    pearsonCorrelation
        [JSVal.n (.num 1), .n (.num 2), .n (.num 3), .n (.num 4), .n (.num 5), .n (.num 6),
         .n (.num 7), .n (.num 8), .n (.num 9), .n (.num 10), .n (.num 11), .n (.num 12)]
        [JSVal.n (.num 2), .n (.num 1), .n (.num 4), .n (.num 3), .n (.num 6), .n (.num 5),
         .n (.num 8), .n (.num 7), .n (.num 10), .n (.num 9), .n (.num 12), .n (.num 11)] =
      .ok
        (pearsonR (survivors
          [JSVal.n (.num 1), .n (.num 2), .n (.num 3), .n (.num 4), .n (.num 5), .n (.num 6),
           .n (.num 7), .n (.num 8), .n (.num 9), .n (.num 10), .n (.num 11), .n (.num 12)]
          [JSVal.n (.num 2), .n (.num 1), .n (.num 4), .n (.num 3), .n (.num 6), .n (.num 5),
           .n (.num 8), .n (.num 7), .n (.num 10), .n (.num 9), .n (.num 12), .n (.num 11)]))
        (pearsonP (survivors
          [JSVal.n (.num 1), .n (.num 2), .n (.num 3), .n (.num 4), .n (.num 5), .n (.num 6),
           .n (.num 7), .n (.num 8), .n (.num 9), .n (.num 10), .n (.num 11), .n (.num 12)]
          [JSVal.n (.num 2), .n (.num 1), .n (.num 4), .n (.num 3), .n (.num 6), .n (.num 5),
           .n (.num 8), .n (.num 7), .n (.num 10), .n (.num 9), .n (.num 12), .n (.num 11)])) :=
  ⟨by decide, by decide,
   (c6_pearson_failed_iff
       [JSVal.n (.num 1), .n (.num 2), .n (.num 3), .n (.num 4), .n (.num 5), .n (.num 6),
        .n (.num 7), .n (.num 8), .n (.num 9), .n (.num 10), .n (.num 11), .n (.num 12)]
       [JSVal.n (.num 2), .n (.num 1), .n (.num 4), .n (.num 3), .n (.num 6), .n (.num 5),
        .n (.num 8), .n (.num 7), .n (.num 10), .n (.num 9), .n (.num 12), .n (.num 11)]).2
     (by decide) (by decide)⟩

/-- C9: `pearsonCorrelation` keeps pairs containing `null` — `null` passes
the `!isNaN` filter and is coerced to the number `0` — and such pairs count
toward the `> 10` valid-pairs threshold: on the 11-pair input with a `null`
at index 5 the surviving pairs are all 11 (the null coerced to `(0, 5)`) and
the call returns an `{r, p}` record, whereas dropping that pair leaves 10
pairs and the call returns `"failed"`. -/
theorem c9_pearson_keeps_null_pairs :
    survivors c9x c9y =
      [(.num 3, .num 2), (.num 5, .num 6), (.num 2, .num 1), (.num 8, .num 7),
       (.num 1, .num 3), (.num 0, .num 5), (.num 7, .num 8), (.num 4, .num 4),
       (.num 9, .num 10), (.num 6, .num 5), (.num 10, .num 9)] ∧
    pearsonCorrelation c9x c9y ≠ .failed ∧
    pearsonCorrelation c9xDropped c9yDropped = .failed := by
  refine ⟨by with_unfolding_all decide, ?_, by with_unfolding_all decide⟩
  with_unfolding_all decide

end Stats
